import Mathlib

/-!
Shallow embedding of the scoring engine of `src/index.ts` (an Express backend for a
prompt-engineering competition).  JS numbers are modelled as `ℚ` (every constant the
scoring code manipulates is a small decimal, exactly representable), JS strings as
`String` processed as `List Char`, nullable fields as `Option`, and the regex
primitives of the source are translated to explicit scans over character lists.
The `\w` class of the source regexes (no `u` flag changes it) is the ASCII class
`[A-Za-z0-9_]`; `\b` is a transition between a `\w` char and a non-`\w` char or a
string edge; `String.prototype.toLowerCase` is modelled by ASCII lowering (every
cased character the evaluators compare is ASCII).
-/

/-! ## Definitions (translated from the source) -/

/-- ASCII `\w` word character, the class used by every regex in the source. -/
def isWordChar (c : Char) : Bool :=
  (('a' ≤ c && c ≤ 'z') || ('A' ≤ c && c ≤ 'Z') || ('0' ≤ c && c ≤ '9') || c = '_')

/-- The JS `\s` whitespace class (used by `trim`, `split(/\s+/)` and `\s?`). -/
def jsSpace (c : Char) : Bool :=
  c = ' ' || c = '\t' || c = '\n' || c = '\r' || c = '\u000b' || c = '\u000c' ||
  c = '\u00a0' || c = '\u1680' || ('\u2000' ≤ c && c ≤ '\u200a') ||
  c = '\u2028' || c = '\u2029' || c = '\u202f' || c = '\u205f' || c = '\u3000' || c = '\ufeff'

/-- Model of `toLowerCase` (ASCII lowering; all cased material compared by the code is ASCII). -/
def lowerL (l : List Char) : List Char := l.map Char.toLower

/-- Does the character at index `i` satisfy `p`?  Out of range counts as `false`. -/
def predAt (p : Char → Bool) (l : List Char) (i : Nat) : Bool :=
  match l.drop i with
  | [] => false
  | c :: _ => p c

/-- Is the character at index `i` a `\w` character (out of range: no)? -/
def wordAt (l : List Char) (i : Nat) : Bool := predAt isWordChar l i

/-- Regex `\b` at position `i`: the `\w`-ness changes between `i - 1` and `i`
(string edges count as non-word). -/
def boundaryAt (l : List Char) (i : Nat) : Bool :=
  (if i = 0 then false else wordAt l (i - 1)) != wordAt l i

/-- `sub` occurs as a contiguous substring of `t` (JS `String.prototype.includes`). -/
def inclB (t sub : List Char) : Bool :=
  (List.range (t.length + 1)).any fun i => (t.drop i).take sub.length == sub

/-- The escaped pattern `\b pat \b` (source `findForbidden`) matches somewhere in `t`:
`pat` occurs literally with a word boundary on each side. -/
def wholeWordHit (t pat : List Char) : Bool :=
  (List.range (t.length + 1)).any fun i =>
    ((t.drop i).take pat.length == pat) && boundaryAt t i && boundaryAt t (i + pat.length)

/-- Number of maximal runs of characters satisfying `p`; `prev` says whether the
character just before the current suffix satisfied `p`. -/
def countRuns (p : Char → Bool) : List Char → Bool → Nat
  | [], _ => 0
  | c :: rest, prev => (if p c && !prev then 1 else 0) + countRuns p rest (p c)

/-- Source `countWords`: number of matches of `/\w+/g`, i.e. of maximal `\w` runs. -/
def countWords (s : String) : Nat := countRuns isWordChar s.toList false

/-- Source `containsRequired`: the required strings not contained (case-insensitively,
plain substring) in the text, in input order. -/
def containsRequired (text : String) (required : List String) : List String :=
  required.filter fun w => !(inclB (lowerL text.toList) (lowerL w.toList))

/-- Source `findForbidden`: the forbidden words that occur whole-word
(case-insensitively) in the text, in input order. -/
def findForbidden (text : String) (forbidden : List String) : List String :=
  forbidden.filter fun w => wholeWordHit (lowerL text.toList) (lowerL w.toList)

/-- Source `detectPrice`: disjunction of the four currency regexes
`/\$\s?\d+/`, `/\bRs\.?\s?\d+/i`, `/\bINR\b\s?\d+/i`, `/\d+\s?₹/`.
The text is lowered once; this only affects the two `/i` patterns, whose letters
are matched in lowered form. -/
def detectPrice (text : String) : Bool :=
  let l := lowerL text.toList
  let n := l.length
  let dollarHit := (List.range n).any fun i =>
    predAt (· = '$') l i &&
      (predAt Char.isDigit l (i + 1) ||
       (predAt jsSpace l (i + 1) && predAt Char.isDigit l (i + 2)))
  let rsHit := (List.range n).any fun i =>
    boundaryAt l i && ((l.drop i).take 2 == ['r', 's']) &&
      (predAt Char.isDigit l (i + 2) ||
       (predAt (· = '.') l (i + 2) && predAt Char.isDigit l (i + 3)) ||
       (predAt jsSpace l (i + 2) && predAt Char.isDigit l (i + 3)) ||
       (predAt (· = '.') l (i + 2) && predAt jsSpace l (i + 3) && predAt Char.isDigit l (i + 4)))
  let inrHit := (List.range n).any fun i =>
    boundaryAt l i && ((l.drop i).take 3 == ['i', 'n', 'r']) && boundaryAt l (i + 3) &&
      (predAt Char.isDigit l (i + 3) ||
       (predAt jsSpace l (i + 3) && predAt Char.isDigit l (i + 4)))
  let rupeeHit := (List.range n).any fun i =>
    predAt Char.isDigit l i &&
      (predAt (· = '₹') l (i + 1) ||
       (predAt jsSpace l (i + 1) && predAt (· = '₹') l (i + 2)))
  dollarHit || rsHit || inrHit || rupeeHit

/-- Sentiment classes of the source (`'positive' | 'negative' | 'neutral'`). -/
inductive Sentiment where
  | positive
  | negative
  | neutral
deriving DecidableEq, Repr

/-- Printed form of a sentiment (for violation strings). -/
def sentStr : Sentiment → String
  | .positive => "positive"
  | .negative => "negative"
  | .neutral => "neutral"

/-- Does a maximal `\w` run start at index `i`? -/
def tokenStartsAt (l : List Char) (i : Nat) : Bool :=
  wordAt l i && (if i = 0 then true else !(wordAt l (i - 1)))

/-- The maximal `\w` run starting at index `i`. -/
def tokenAt (l : List Char) (i : Nat) : List Char := (l.drop i).takeWhile isWordChar

/-- Number of matches of `/\b(w1|...|wk)\b/gi` in `l` for plain-word alternatives:
exactly the maximal `\w` runs equal to one of the (lower-case) targets. -/
def tokenCount (l : List Char) (targets : List (List Char)) : Nat :=
  (List.range l.length).countP fun i => tokenStartsAt l i && targets.contains (tokenAt l i)

/-- Positive word list of source `simpleSentiment`. -/
def posWords : List String := ["good", "great", "excellent", "positive", "love", "like"]

/-- Negative word list of source `simpleSentiment`. -/
def negWords : List String := ["bad", "terrible", "awful", "hate", "dislike", "poor"]

/-- Source `simpleSentiment`: compare the counts of positive and negative matches. -/
def simpleSentiment (text : String) : Sentiment :=
  let t := lowerL text.toList
  let pos := tokenCount t (posWords.map (·.toList))
  let neg := tokenCount t (negWords.map (·.toList))
  if neg < pos then .positive else if pos < neg then .negative else .neutral

/-- Source `EvaluationCriteria`: a field is `none` when absent from the JS object
or of the wrong type, in which case the corresponding check is skipped. -/
structure EvaluationCriteria where
  wordCount : Option Nat := none
  maxWords : Option Nat := none
  containsPrice : Option Bool := none
  requiredElements : Option (List String) := none
  forbiddenWords : Option (List String) := none
  sentiment : Option Sentiment := none
deriving Repr

/-- Source `EvaluationResult` (the `feedback` string, a purely presentational join of
diagnostic fragments, is not modelled). -/
structure EvaluationResult where
  score : ℚ
  violations : List String
deriving Repr, DecidableEq

/-- JS `Math.round(q * 100) / 100`: round to 2 decimals, halves toward plus infinity
(`Math.round x = ⌊x + 1/2⌋` for every finite double).  `Rat.floor` is used rather
than `Int.floor` so the definition evaluates by kernel reduction. -/
def round2 (q : ℚ) : ℚ := ((q * 100 + 1 / 2).floor : ℚ) / 100

/-- Baseline length penalty of `evaluateOutputAgainstCriteria` (lines 463 to 469). -/
def lengthPenalty (wc : Nat) : ℚ :=
  if wc < 10 then 30 else if wc < 20 then 15 else 0

/-- Baseline length violations (lines 463 to 469). -/
def lengthViol (wc : Nat) : List String :=
  if wc < 10 then ["too_short"] else if wc < 20 then ["very_brief"] else []

/-- Penalty of the exact word-count check (lines 471 to 477). -/
def wordCountPenalty (wc : Nat) (c : EvaluationCriteria) : ℚ :=
  match c.wordCount with
  | none => 0
  | some expected => if wc = expected then 0 else min 25 (|(wc : ℚ) - (expected : ℚ)| * 1.5)

/-- Penalty of the maximum word-count check (lines 479 to 485). -/
def maxWordsPenalty (wc : Nat) (c : EvaluationCriteria) : ℚ :=
  match c.maxWords with
  | none => 0
  | some mw => if mw < wc then min 25 (((wc : ℚ) - (mw : ℚ)) * 1.2) else 0

/-- Penalty of the price check (lines 487 to 498); the two branches are exclusive. -/
def pricePenalty (output : String) (c : EvaluationCriteria) : ℚ :=
  match c.containsPrice with
  | none => 0
  | some wantsPrice =>
    (if wantsPrice && !detectPrice output then 15 else 0) +
    (if !wantsPrice && detectPrice output then 5 else 0)

/-- Penalty of the required-elements check (lines 500 to 506). -/
def requiredPenalty (output : String) (c : EvaluationCriteria) : ℚ :=
  match c.requiredElements with
  | none => 0
  | some req => 12 * ((containsRequired output req).length : ℚ)

/-- Penalty of the forbidden-words check (lines 508 to 514). -/
def forbiddenPenalty (output : String) (c : EvaluationCriteria) : ℚ :=
  match c.forbiddenWords with
  | none => 0
  | some fw => 15 * ((findForbidden output fw).length : ℚ)

/-- Penalty of the sentiment check (lines 516 to 523). -/
def sentimentPenalty (output : String) (c : EvaluationCriteria) : ℚ :=
  match c.sentiment with
  | none => 0
  | some want => if want = simpleSentiment output then 0 else 8

/-- The running score of `evaluateOutputAgainstCriteria` just before the multiplier:
the source starts at `70.0`, subtracts each applicable penalty in sequence (no
intermediate clamp), then clamps at 0 (line 526). -/
def preScore (output : String) (c : EvaluationCriteria) : ℚ :=
  let wc := countWords output
  let raw : ℚ := 70 - lengthPenalty wc - wordCountPenalty wc c - maxWordsPenalty wc c
      - pricePenalty output c - requiredPenalty output c - forbiddenPenalty output c
      - sentimentPenalty output c
  if raw < 0 then 0 else raw

/-- The violation codes pushed by `evaluateOutputAgainstCriteria`, in source order. -/
def violationsOf (output : String) (c : EvaluationCriteria) : List String :=
  let wc := countWords output
  lengthViol wc
  ++ (match c.wordCount with
      | none => []
      | some expected =>
        if wc = expected then []
        else ["wordCount:" ++ toString wc ++ "/" ++ toString expected])
  ++ (match c.maxWords with
      | none => []
      | some mw =>
        if mw < wc then ["exceeded_maxWords:" ++ toString wc ++ "/" ++ toString mw] else [])
  ++ (match c.containsPrice with
      | none => []
      | some wantsPrice =>
        (if wantsPrice && !detectPrice output then ["missing_price"] else []) ++
        (if !wantsPrice && detectPrice output then ["unexpected_price"] else []))
  ++ (match c.requiredElements with
      | none => []
      | some req =>
        let missing := containsRequired output req
        if missing.isEmpty then [] else ["missing_elements:" ++ String.intercalate "," missing])
  ++ (match c.forbiddenWords with
      | none => []
      | some fw =>
        let found := findForbidden output fw
        if found.isEmpty then [] else ["forbidden_words:" ++ String.intercalate "," found])
  ++ (match c.sentiment with
      | none => []
      | some want =>
        let got := simpleSentiment output
        if want = got then []
        else ["sentiment_mismatch:expected_" ++ sentStr want ++ "_got_" ++ sentStr got])

/-- Source `evaluateOutputAgainstCriteria` (lines 456 to 535): clamp the penalty-adjusted
base-70 score at 0, multiply by the round multiplier, round to 2 decimals. -/
def evaluateOutputAgainstCriteria (output : String) (c : EvaluationCriteria)
    (roundMult : ℚ) : EvaluationResult :=
  { score := round2 (preScore output c * roundMult), violations := violationsOf output c }

/-- Multiples of one tenth: every penalty and every running score of the criteria
evaluator is one (the decimal constants are 1.5 and 1.2 times integers). -/
def Tenths (q : ℚ) : Prop := ∃ n : ℤ, q = (n : ℚ) / 10

/-- Scenario A output of the spec (§8). -/
def scenarioAOutput : String :=
  "Great product! Amazing value for just $99 with a 5000mAh battery and 108MP camera."

/-- Scenario A criteria of the spec (§8). -/
def scenarioACriteria : EvaluationCriteria :=
  { maxWords := some 75, forbiddenWords := some ["amazing"],
    requiredElements := some ["₹", "battery", "camera"] }

/-- Word counting of `evaluatePromptQuality`: `prompt.trim().split(/\s+/).length`.
JS `trim` strips `\s` from both ends; splitting the empty string yields one (empty)
field, so the count is never 0. -/
def trimSplitCount (s : String) : Nat :=
  let t := ((s.toList.dropWhile jsSpace).reverse.dropWhile jsSpace).reverse
  if t.isEmpty then 1 else countRuns (fun c => !jsSpace c) t false

/-- Round-1 core marketing keywords (regex `/product|marketing|description|compelling|features|benefits|customers?/i`;
`customers?` matches whenever the substring `customer` occurs). -/
def r1Core : List String :=
  ["product", "marketing", "description", "compelling", "features", "benefits", "customer"]

/-- Round-1 secondary keywords. -/
def r1Sec : List String := ["creative", "innovative", "unique", "brand", "target", "audience"]

/-- Round-3 core business keywords. -/
def r3Core : List String :=
  ["business", "strategy", "plan", "market", "analysis", "financial", "revenue", "growth"]

/-- Round-3 secondary keywords. -/
def r3Sec : List String :=
  ["competitive", "scalable", "funding", "team", "projections", "risk", "mitigation"]

/-- Action verbs (universal +5 bonus). -/
def actionWords : List String := ["create", "generate", "develop", "build", "design", "write"]

/-- Quality adjectives (universal +8 bonus). -/
def qualityWords : List String :=
  ["detailed", "comprehensive", "specific", "professional", "high-quality"]

/-- `.test(prompt)` for a case-insensitive alternation of literal substrings. -/
def testAny (prompt : String) (ws : List String) : Bool :=
  ws.any fun w => inclB (lowerL prompt.toList) w.toList

/-- Source `evaluatePromptQuality`: base 60, length-band adjustment, round-keyed
keyword bonuses, universal action/quality bonuses, clamp to [20, 100].
All adjustments are integers, so the JS number is modelled as `ℤ`. -/
def evaluatePromptQuality (prompt : String) (roundNum : ℤ) : ℤ :=
  let words := trimSplitCount prompt
  let base : ℤ := 60
  let s1 : ℤ :=
    if words < 5 then base - 30
    else if words < 10 then base - 15
    else if words > 15 then base + 10
    else base
  let s2 : ℤ :=
    if roundNum = 1 then
      s1 + (if testAny prompt r1Core then 15 else 0) + (if testAny prompt r1Sec then 10 else 0)
    else if roundNum = 3 then
      s1 + (if testAny prompt r3Core then 15 else 0) + (if testAny prompt r3Sec then 10 else 0)
    else s1
  let s3 : ℤ := s2 + (if testAny prompt actionWords then 5 else 0)
  let s4 : ℤ := s3 + (if testAny prompt qualityWords then 8 else 0)
  max 20 (min 100 s4)

/-- Marker detection of the reverse-engineering evaluator: the source is a chain of
`response.includes(w)` checks joined by `||`, i.e. does any word of the list occur as
a substring of the (lowered) response. -/
def hasREMarker (resp : List Char) (ws : List String) : Bool :=
  ws.any fun w => inclB resp w.toList

/-- Reconstruction marker words (line 340). -/
def rePromptWords : List String := ["prompt", "ask", "write", "create"]

/-- Reasoning marker words (line 348). -/
def reReasonWords : List String := ["because", "likely", "suggests", "indicates", "reasoning"]

/-- Analysis marker words (line 356). -/
def reAnalysisWords : List String := ["style", "format", "structure", "detail"]

/-- Context marker words (line 363). -/
def reContextWords : List String := ["recipe", "cooking", "baking", "ingredients"]

/-- Source `evaluateReverseEngineering`: base 100, −30 without a reconstruction marker,
−25 without a reasoning marker, +10 with an analysis marker (no ceiling), −15 without a
context marker, floor-clamp at 0, round to 2 decimals. -/
def evaluateReverseEngineering (userResponse : String) : EvaluationResult :=
  let resp := lowerL userResponse.toList
  let hasPromptReconstruction := hasREMarker resp rePromptWords
  let hasReasoning := hasREMarker resp reReasonWords
  let hasAnalysis := hasREMarker resp reAnalysisWords
  let hasContextUnderstanding := hasREMarker resp reContextWords
  let raw : ℚ := 100 - (if hasPromptReconstruction then 0 else 30)
      - (if hasReasoning then 0 else 25) + (if hasAnalysis then 10 else 0)
      - (if hasContextUnderstanding then 0 else 15)
  let clamped : ℚ := if raw < 0 then 0 else raw
  { score := round2 clamped,
    violations :=
      (if hasPromptReconstruction then [] else ["missing_prompt_reconstruction"]) ++
      (if hasReasoning then [] else ["missing_reasoning"]) ++
      (if hasContextUnderstanding then [] else ["missing_context_understanding"]) }

/-- Progressive difficulty multiplier (lines 591 and 882):
round 1 -> 1.0, round 2 -> 1.5, round 3 -> 2.0, anything else -> 1.0. -/
def roundMultiplier (roundNum : ℤ) : ℚ :=
  if roundNum = 1 then 1 else if roundNum = 2 then 1.5 else if roundNum = 3 then 2 else 1

/-- `const roundNum = round || 1`: `null` (absent) and the falsy `0` both become 1. -/
def effRound (round : Option ℤ) : ℤ :=
  match round with
  | none => 1
  | some r => if r = 0 then 1 else r

/-- The scoring policy of `POST /api/submit-prompt` (lines 588 to 617): round 2 applies
the reverse-engineering evaluator to the PROMPT and multiplies its score by the round
multiplier; other rounds evaluate the generated output against the criteria with
multiplier 1.0, blend 60% output score with 40% prompt-quality score, then apply the
round multiplier.  Scores are re-rounded to 2 decimals in both branches. -/
def submitEval (prompt llmResp : String) (roundNum : ℤ)
    (criteria : EvaluationCriteria) : EvaluationResult :=
  let multiplier := roundMultiplier roundNum
  if roundNum = 2 then
    let r := evaluateReverseEngineering prompt
    { score := round2 (r.score * multiplier), violations := r.violations }
  else
    let outR := evaluateOutputAgainstCriteria llmResp criteria 1
    let promptScore := evaluatePromptQuality prompt roundNum
    let combined := outR.score * 0.6 + (promptScore : ℚ) * 0.4
    { score := round2 (combined * multiplier), violations := outR.violations }

/-- The fields of a `Submission` row that the scoring endpoints write
(`id`, `createdAt` and `teamId` are plumbing and not modelled). -/
structure SubmissionRec where
  round : Option ℤ
  challenge : Option String
  prompt : String
  llmResponse : String
  score : ℚ
  tokensUsed : Nat
  violations : Option String
deriving Repr, DecidableEq

/-- A team's persisted state: cumulative score plus its submission history. -/
structure TeamState where
  score : ℚ
  submissions : List SubmissionRec
deriving Repr

/-- The submission row written by `POST /api/submit-prompt` (lines 624 to 636):
`tokensUsed = max(1, countWords(llmResp))`, violations joined by `;` with the empty
join stored as null. -/
def submitRecord (round : Option ℤ) (challenge : Option String) (prompt llmResp : String)
    (ev : EvaluationResult) : SubmissionRec :=
  { round := round, challenge := challenge, prompt := prompt, llmResponse := llmResp,
    score := ev.score, tokensUsed := max 1 (countWords llmResp),
    violations :=
      let j := String.intercalate ";" ev.violations
      if j = "" then none else some j }

/-- State effect of `POST /api/submit-prompt` (lines 619 to 665): the submission is
always recorded; the team total is increased by the final score only when
`passed = score >= 60`. -/
def submitPrompt (st : TeamState) (round : Option ℤ) (challenge : Option String)
    (prompt llmResp : String) (criteria : EvaluationCriteria) : TeamState :=
  let roundNum := effRound round
  let ev := submitEval prompt llmResp roundNum criteria
  let passed := decide (60 ≤ ev.score)
  { score := if passed then st.score + ev.score else st.score,
    submissions := st.submissions ++ [submitRecord round challenge prompt llmResp ev] }

/-- State effect of `POST /api/challenges/:round/:challengeId/score` when a `teamId` is
supplied (lines 884 to 908): the output is scored with the round multiplier already
applied, a submission row is written, and the team total is increased by the final
score UNCONDITIONALLY (the source comment says "simple sum" — no pass threshold). -/
def challengeScoreUpdate (st : TeamState) (roundOrder : ℤ) (slug : String)
    (criteria : EvaluationCriteria) (prompt : Option String) (llmOutput : String) :
    TeamState :=
  let multiplier := roundMultiplier roundOrder
  let result := evaluateOutputAgainstCriteria llmOutput criteria multiplier
  { score := st.score + result.score,
    submissions := st.submissions ++
      [{ round := some roundOrder, challenge := some slug,
         prompt := prompt.getD "(scoring) No prompt provided",
         llmResponse := llmOutput, score := result.score,
         tokensUsed := countWords llmOutput,
         violations := if result.violations.isEmpty then none
                       else some (String.intercalate ";" result.violations) }] }

/-- The round-1 challenge criteria seeded in `SEED_ROUNDS` (lines 158 to 162), as merged
by the scoring endpoint when the caller supplies no overriding criteria
(lines 866 to 878). -/
def seedRound1Criteria : EvaluationCriteria :=
  { maxWords := some 75,
    forbiddenWords := some ["revolutionary", "groundbreaking", "unprecedented",
      "game-changing", "world-class"],
    requiredElements := some ["₹", "battery", "camera", "mAh"] }

/-- One row of the per-round progress output (line 994 to 1002). -/
structure RoundSnapshot where
  round : ℤ
  unlocked : Bool
  accessible : Bool
  locked : Bool
  completed : Bool
  bestScore : Option ℚ
  attempts : Nat
deriving Repr, DecidableEq

/-- The submissions of one round (`submissions.filter(s => s.round === roundNum)`). -/
def roundSubs (subs : List SubmissionRec) (r : ℤ) : List SubmissionRec :=
  subs.filter fun s => s.round == some r

/-- `Math.max(0, ...roundSubmissions.map(s => s.score))`: spread of the scores with a
floor of 0 (0 when the round has no submissions). -/
def bestScoreRaw (subs : List SubmissionRec) (r : ℤ) : ℚ :=
  ((roundSubs subs r).map (·.score)).foldl max 0

/-- Source `isPreviousRoundCompleted` (lines 969 to 974). -/
def isPreviousRoundCompleted (subs : List SubmissionRec) (r : ℤ) : Bool :=
  if r ≤ 1 then true else decide (60 ≤ bestScoreRaw subs (r - 1))

/-- One iteration of the `[1, 2, 3].map(...)` body (lines 963 to 1002).  In the source,
`accessible` and `locked` are initialised to `false` and the round-2 branch computes
`accessible = isPreviousRoundCompleted(2) && !locked` BEFORE assigning
`locked = isPreviousRoundCompleted(3)` — so that read of `locked` sees the initial
`false`; `locked0` reproduces the stale read. -/
def roundSnapshot (subs : List SubmissionRec) (roundNum : ℤ) : RoundSnapshot :=
  let best := bestScoreRaw subs roundNum
  let isCompleted := decide (60 ≤ best)
  let locked0 := false
  let ap : Bool × Bool :=
    if roundNum = 1 then (true, isPreviousRoundCompleted subs 2)
    else if roundNum = 2 then
      (isPreviousRoundCompleted subs 2 && !locked0, isPreviousRoundCompleted subs 3)
    else if roundNum = 3 then (isPreviousRoundCompleted subs 3, false)
    else (locked0, locked0)
  { round := roundNum,
    unlocked := isPreviousRoundCompleted subs roundNum,
    accessible := ap.1,
    locked := ap.2,
    completed := isCompleted,
    bestScore := if 0 < best then some best else none,
    attempts := (roundSubs subs roundNum).length }

/-- The whole progress payload: one snapshot per round 1, 2, 3. -/
def roundProgress (subs : List SubmissionRec) : List RoundSnapshot :=
  [1, 2, 3].map (roundSnapshot subs)

/-! ## Theorems -/

/-- The computable `Rat.floor` in `round2` agrees with `Int.floor`. -/
theorem round2_eq_intFloor (q : ℚ) : round2 q = (⌊q * 100 + 1 / 2⌋ : ℚ) / 100 := by
  unfold round2
  rw [Rat.floor_def, Rat.floor_def']

/-- JS rounding is the identity on values that are whole numbers of hundredths. -/
theorem round2_of_hundredths (q : ℚ) (z : ℤ) (h : q * 100 = z) : round2 q = q := by
  rw [round2_eq_intFloor, h]
  have hhalf : ⌊(1 / 2 : ℚ)⌋ = 0 := by
    rw [Int.floor_eq_iff]
    norm_num
  have h2 : ⌊(z : ℚ) + 1 / 2⌋ = z := by
    rw [add_comm, Int.floor_add_int, hhalf, zero_add]
  rw [h2, div_eq_iff (by norm_num : (100 : ℚ) ≠ 0), ← h]

theorem Tenths.sub {a b : ℚ} (ha : Tenths a) (hb : Tenths b) : Tenths (a - b) := by
  obtain ⟨n, rfl⟩ := ha
  obtain ⟨m, rfl⟩ := hb
  exact ⟨n - m, by push_cast; ring⟩

theorem div10_mono {n m : ℤ} (h : n ≤ m) : (n : ℚ) / 10 ≤ (m : ℚ) / 10 := by
  gcongr

theorem Tenths.min {a b : ℚ} (ha : Tenths a) (hb : Tenths b) : Tenths (min a b) := by
  obtain ⟨n, rfl⟩ := ha
  obtain ⟨m, rfl⟩ := hb
  rcases le_total n m with h | h
  · rw [min_eq_left (div10_mono h)]
    exact ⟨n, rfl⟩
  · rw [min_eq_right (div10_mono h)]
    exact ⟨m, rfl⟩

theorem lengthPenalty_tenths (wc : Nat) : Tenths (lengthPenalty wc) := by
  unfold lengthPenalty
  split_ifs
  · exact ⟨300, by norm_num⟩
  · exact ⟨150, by norm_num⟩
  · exact ⟨0, by norm_num⟩

theorem wordCountPenalty_tenths (wc : Nat) (c : EvaluationCriteria) :
    Tenths (wordCountPenalty wc c) := by
  unfold wordCountPenalty
  cases c.wordCount with
  | none => exact ⟨0, by norm_num⟩
  | some e =>
    dsimp only
    split_ifs
    · exact ⟨0, by norm_num⟩
    · refine Tenths.min ⟨250, by norm_num⟩ ⟨15 * |(wc : ℤ) - (e : ℤ)|, ?_⟩
      have h1 : (wc : ℚ) - (e : ℚ) = Int.cast ((wc : ℤ) - (e : ℤ)) := by push_cast; ring
      have h2 : (1.5 : ℚ) = 15 / 10 := by norm_num
      rw [h1, ← Int.cast_abs, h2]
      generalize |(wc : ℤ) - (e : ℤ)| = k
      push_cast
      ring

theorem maxWordsPenalty_tenths (wc : Nat) (c : EvaluationCriteria) :
    Tenths (maxWordsPenalty wc c) := by
  unfold maxWordsPenalty
  cases c.maxWords with
  | none => exact ⟨0, by norm_num⟩
  | some mw =>
    dsimp only
    split_ifs
    · refine Tenths.min ⟨250, by norm_num⟩ ⟨12 * ((wc : ℤ) - (mw : ℤ)), ?_⟩
      have h2 : (1.2 : ℚ) = 12 / 10 := by norm_num
      rw [h2]
      push_cast
      ring
    · exact ⟨0, by norm_num⟩

theorem pricePenalty_tenths (o : String) (c : EvaluationCriteria) :
    Tenths (pricePenalty o c) := by
  unfold pricePenalty
  cases c.containsPrice with
  | none => exact ⟨0, by norm_num⟩
  | some w =>
    dsimp only
    split_ifs
    · exact ⟨200, by norm_num⟩
    · exact ⟨150, by norm_num⟩
    · exact ⟨50, by norm_num⟩
    · exact ⟨0, by norm_num⟩

theorem requiredPenalty_tenths (o : String) (c : EvaluationCriteria) :
    Tenths (requiredPenalty o c) := by
  unfold requiredPenalty
  cases c.requiredElements with
  | none => exact ⟨0, by norm_num⟩
  | some req => exact ⟨120 * ((containsRequired o req).length : ℤ), by push_cast; ring⟩

theorem forbiddenPenalty_tenths (o : String) (c : EvaluationCriteria) :
    Tenths (forbiddenPenalty o c) := by
  unfold forbiddenPenalty
  cases c.forbiddenWords with
  | none => exact ⟨0, by norm_num⟩
  | some fw => exact ⟨150 * ((findForbidden o fw).length : ℤ), by push_cast; ring⟩

theorem sentimentPenalty_tenths (o : String) (c : EvaluationCriteria) :
    Tenths (sentimentPenalty o c) := by
  unfold sentimentPenalty
  cases c.sentiment with
  | none => exact ⟨0, by norm_num⟩
  | some w =>
    dsimp only
    split_ifs
    · exact ⟨0, by norm_num⟩
    · exact ⟨80, by norm_num⟩

theorem preScore_tenths (o : String) (c : EvaluationCriteria) : Tenths (preScore o c) := by
  unfold preScore
  dsimp only
  split_ifs
  · exact ⟨0, by norm_num⟩
  · exact Tenths.sub (Tenths.sub (Tenths.sub (Tenths.sub (Tenths.sub (Tenths.sub
      (Tenths.sub ⟨700, by norm_num⟩ (lengthPenalty_tenths _)) (wordCountPenalty_tenths _ _))
      (maxWordsPenalty_tenths _ _)) (pricePenalty_tenths _ _)) (requiredPenalty_tenths _ _))
      (forbiddenPenalty_tenths _ _)) (sentimentPenalty_tenths _ _)

theorem lengthPenalty_nonneg (wc : Nat) : 0 ≤ lengthPenalty wc := by
  unfold lengthPenalty
  split_ifs <;> norm_num

theorem wordCountPenalty_nonneg (wc : Nat) (c : EvaluationCriteria) :
    0 ≤ wordCountPenalty wc c := by
  unfold wordCountPenalty
  cases c.wordCount with
  | none => norm_num
  | some e =>
    dsimp only
    split_ifs
    · norm_num
    · exact le_min (by norm_num) (by positivity)

theorem maxWordsPenalty_nonneg (wc : Nat) (c : EvaluationCriteria) :
    0 ≤ maxWordsPenalty wc c := by
  unfold maxWordsPenalty
  cases c.maxWords with
  | none => norm_num
  | some mw =>
    dsimp only
    split_ifs with h
    · refine le_min (by norm_num) (mul_nonneg (sub_nonneg.mpr ?_) (by norm_num))
      exact_mod_cast h.le
    · norm_num

theorem pricePenalty_nonneg (o : String) (c : EvaluationCriteria) : 0 ≤ pricePenalty o c := by
  unfold pricePenalty
  cases c.containsPrice with
  | none => norm_num
  | some w =>
    dsimp only
    split_ifs <;> norm_num

theorem requiredPenalty_nonneg (o : String) (c : EvaluationCriteria) :
    0 ≤ requiredPenalty o c := by
  unfold requiredPenalty
  cases c.requiredElements with
  | none => norm_num
  | some req => positivity

theorem forbiddenPenalty_nonneg (o : String) (c : EvaluationCriteria) :
    0 ≤ forbiddenPenalty o c := by
  unfold forbiddenPenalty
  cases c.forbiddenWords with
  | none => norm_num
  | some fw => positivity

theorem sentimentPenalty_nonneg (o : String) (c : EvaluationCriteria) :
    0 ≤ sentimentPenalty o c := by
  unfold sentimentPenalty
  cases c.sentiment with
  | none => norm_num
  | some w =>
    dsimp only
    split_ifs <;> norm_num

theorem preScore_nonneg (o : String) (c : EvaluationCriteria) : 0 ≤ preScore o c := by
  unfold preScore
  dsimp only
  split_ifs with h
  · exact le_refl 0
  · exact le_of_not_lt h

theorem preScore_le_70 (o : String) (c : EvaluationCriteria) : preScore o c ≤ 70 := by
  have h1 := lengthPenalty_nonneg (countWords o)
  have h2 := wordCountPenalty_nonneg (countWords o) c
  have h3 := maxWordsPenalty_nonneg (countWords o) c
  have h4 := pricePenalty_nonneg o c
  have h5 := requiredPenalty_nonneg o c
  have h6 := forbiddenPenalty_nonneg o c
  have h7 := sentimentPenalty_nonneg o c
  unfold preScore
  dsimp only
  split_ifs
  · norm_num
  · linarith

/-- On a multiple of one tenth scaled by one of the round multipliers, JS
2-decimal rounding is the identity. -/
theorem round2_tenths_mul {q : ℚ} (hq : Tenths q) {m : ℚ}
    (hm : m = 1 ∨ m = 1.5 ∨ m = 2) : round2 (q * m) = q * m := by
  obtain ⟨n, rfl⟩ := hq
  rcases hm with rfl | rfl | rfl
  · exact round2_of_hundredths _ (10 * n) (by push_cast; ring)
  · refine round2_of_hundredths _ (15 * n) ?_
    have h2 : (1.5 : ℚ) = 15 / 10 := by norm_num
    rw [h2]
    push_cast
    ring
  · exact round2_of_hundredths _ (20 * n) (by push_cast; ring)

/-- C1: for every output and criteria object the criteria evaluator's pre-multiplier
score (base 70 minus all applicable penalties, floor-clamped at 0) lies in [0, 70];
consequently for every round multiplier m (1.0, 1.5 or 2.0) the returned score lies
in [0, 70*m], which is within the spec's [0, 100*m] bound — no check in
`evaluateOutputAgainstCriteria` ever adds to the score. -/
theorem criteriaEvaluator_score_bounds (o : String) (c : EvaluationCriteria) (m : ℚ)
    (hm : m = 1 ∨ m = 1.5 ∨ m = 2) :
    0 ≤ preScore o c ∧ preScore o c ≤ 70 ∧
    0 ≤ (evaluateOutputAgainstCriteria o c m).score ∧
    (evaluateOutputAgainstCriteria o c m).score ≤ 70 * m ∧
    70 * m ≤ 100 * m := by
  have h0 := preScore_nonneg o c
  have h70 := preScore_le_70 o c
  have hm0 : (0 : ℚ) ≤ m := by rcases hm with rfl | rfl | rfl <;> norm_num
  have hs : (evaluateOutputAgainstCriteria o c m).score = preScore o c * m :=
    round2_tenths_mul (preScore_tenths o c) hm
  refine ⟨h0, h70, ?_, ?_, ?_⟩
  · rw [hs]
    exact mul_nonneg h0 hm0
  · rw [hs]
    exact mul_le_mul_of_nonneg_right h70 hm0
  · exact mul_le_mul_of_nonneg_right (by norm_num) hm0

/-- Witness for C1 at a concrete input (output "hello", empty criteria, round-2
multiplier 1.5). -/
theorem criteriaEvaluator_score_bounds_witness :
    0 ≤ preScore "hello" {} ∧ preScore "hello" {} ≤ 70 ∧
    0 ≤ (evaluateOutputAgainstCriteria "hello" {} 1.5).score ∧
    (evaluateOutputAgainstCriteria "hello" {} 1.5).score ≤ 70 * 1.5 ∧
    (70 : ℚ) * 1.5 ≤ 100 * 1.5 :=
  criteriaEvaluator_score_bounds "hello" {} 1.5 (by norm_num)

/-- C4: for every output, criteria and m in 1.0, 1.5, 2.0 the score returned with
multiplier m equals the multiplier-1.0 score times m rounded to 2 decimals, and the
violation list is identical for all m. -/
theorem multiplier_scaling (o : String) (c : EvaluationCriteria) (m : ℚ)
    (hm : m = 1 ∨ m = 1.5 ∨ m = 2) :
    (evaluateOutputAgainstCriteria o c m).score
      = round2 ((evaluateOutputAgainstCriteria o c 1).score * m) ∧
    (evaluateOutputAgainstCriteria o c m).violations
      = (evaluateOutputAgainstCriteria o c 1).violations := by
  have hpre := preScore_tenths o c
  have h1 : (evaluateOutputAgainstCriteria o c 1).score = preScore o c := by
    show round2 (preScore o c * 1) = preScore o c
    rw [round2_tenths_mul hpre (Or.inl rfl), mul_one]
  constructor
  · show round2 (preScore o c * m) = round2 ((evaluateOutputAgainstCriteria o c 1).score * m)
    rw [h1]
  · rfl

/-- Witness for C4 at a concrete input (output "hi there", empty criteria, m = 2). -/
theorem multiplier_scaling_witness :
    (evaluateOutputAgainstCriteria "hi there" {} 2).score
      = round2 ((evaluateOutputAgainstCriteria "hi there" {} 1).score * 2) ∧
    (evaluateOutputAgainstCriteria "hi there" {} 2).violations
      = (evaluateOutputAgainstCriteria "hi there" {} 1).violations :=
  multiplier_scaling "hi there" {} 2 (by norm_num)

/-- What the code actually does on scenario A: the output has 14 `\w` words, so the
`very_brief` penalty (−15) fires in addition to the forbidden word (−15) and the
missing `₹` (−12), giving 70 − 15 − 12 − 15 = 28. -/
theorem scenarioA_eval :
    countWords scenarioAOutput = 14 ∧
    (evaluateOutputAgainstCriteria scenarioAOutput scenarioACriteria 1).score = 28 ∧
    (evaluateOutputAgainstCriteria scenarioAOutput scenarioACriteria 1).violations
      = ["very_brief", "missing_elements:₹", "forbidden_words:amazing"] := by
  have hwc : countWords scenarioAOutput = 14 := by decide
  have hreq : containsRequired scenarioAOutput ["₹", "battery", "camera"] = ["₹"] := by decide
  have hforb : findForbidden scenarioAOutput ["amazing"] = ["amazing"] := by decide
  refine ⟨hwc, ?_, ?_⟩
  · have hpre : preScore scenarioAOutput scenarioACriteria = 28 := by
      simp only [preScore, scenarioACriteria, lengthPenalty, wordCountPenalty, maxWordsPenalty,
        pricePenalty, requiredPenalty, forbiddenPenalty, sentimentPenalty, hwc, hreq, hforb]
      norm_num
    show round2 (preScore scenarioAOutput scenarioACriteria * 1) = 28
    rw [hpre, mul_one]
    exact round2_of_hundredths _ 2800 (by norm_num)
  · show violationsOf scenarioAOutput scenarioACriteria = _
    decide

/-- C3 counterexample: on scenario A the claimed final score 43 is wrong (the code
returns 28) and, contrary to the claim, `very_brief` is among the violations,
because the output has 14 words, not 20 or more. -/
theorem scenarioA_counterexample :
    (evaluateOutputAgainstCriteria scenarioAOutput scenarioACriteria 1).score ≠ 43 ∧
    "very_brief" ∈ (evaluateOutputAgainstCriteria scenarioAOutput scenarioACriteria 1).violations := by
  obtain ⟨-, hs, hv⟩ := scenarioA_eval
  constructor
  · rw [hs]
    norm_num
  · rw [hv]
    exact List.mem_cons_self _ _

/-- C3 amended: scenario A has 14 `\w` words (so the `very_brief` −15 penalty fires),
and the evaluator returns final score 28 = 70 − 15 − 12 − 15 with violations
`very_brief`, `missing_elements:₹`, `forbidden_words:amazing` (in that order). -/
theorem scenarioA_amended :
    countWords scenarioAOutput = 14 ∧
    (evaluateOutputAgainstCriteria scenarioAOutput scenarioACriteria 1).score = 28 ∧
    (evaluateOutputAgainstCriteria scenarioAOutput scenarioACriteria 1).violations
      = ["very_brief", "missing_elements:₹", "forbidden_words:amazing"] :=
  scenarioA_eval

/-- A run-count is positive as soon as some element of the list satisfies the predicate
(starting outside a run). -/
theorem countRuns_pos (p : Char → Bool) (l : List Char) :
    ∀ c, c ∈ l → p c = true → 1 ≤ countRuns p l false := by
  induction l with
  | nil =>
    intro c hc _
    cases hc
  | cons x xs ih =>
    intro c hc hpc
    by_cases hx : p x = true
    · have h1 : countRuns p (x :: xs) false = 1 + countRuns p xs (p x) := by
        simp [countRuns, hx]
      rw [h1]
      omega
    · have hxf : p x = false := Bool.eq_false_iff.mpr hx
      have hmem2 : c ∈ xs := by
        rcases List.mem_cons.mp hc with h1 | h1
        · exfalso
          rw [h1, hxf] at hpc
          exact Bool.noConfusion hpc
        · exact h1
      have h2 := ih c hmem2 hpc
      simpa [countRuns, hxf] using h2

/-- The first element surviving `dropWhile p` fails `p`. -/
theorem dropWhile_head_false (p : Char → Bool) :
    ∀ (l : List Char) (c : Char) (rest : List Char), l.dropWhile p = c :: rest → p c = false := by
  intro l
  induction l with
  | nil =>
    intro c rest h
    cases h
  | cons x xs ih =>
    intro c rest h
    by_cases hx : p x = true
    · rw [List.dropWhile_cons_of_pos hx] at h
      exact ih c rest h
    · rw [List.dropWhile_cons_of_neg hx] at h
      injection h with h1 h2
      rw [← h1]
      exact Bool.eq_false_iff.mpr hx

/-- C10: the trim-then-split word count of the prompt-quality heuristic never yields 0
(unlike `countWords`, which gives 0 on the empty string), so an empty prompt falls in
the under-5-words band, gets −30 and no keyword bonus, and scores 30 for every round
number — above the clamp floor of 20. -/
theorem emptyPrompt_quality :
    (∀ s : String, 1 ≤ trimSplitCount s) ∧
    countWords "" = 0 ∧
    (∀ r : ℤ, evaluatePromptQuality "" r = 30) := by
  refine ⟨?_, by decide, ?_⟩
  · intro s
    unfold trimSplitCount
    dsimp only
    split_ifs with h
    · exact le_refl 1
    · rcases hcase : List.dropWhile jsSpace (List.dropWhile jsSpace s.toList).reverse
        with _ | ⟨c, rest⟩
      · exfalso
        apply h
        rw [hcase]
        rfl
      · have hcs : jsSpace c = false := dropWhile_head_false jsSpace _ c rest hcase
        refine countRuns_pos _ _ c ?_ (by simp [hcs])
        exact List.mem_reverse.mpr (List.mem_cons_self _ _)
  · intro r
    have h1 : trimSplitCount "" = 1 := by decide
    have hA : testAny "" r1Core = false := by decide
    have hB : testAny "" r1Sec = false := by decide
    have hC : testAny "" r3Core = false := by decide
    have hD : testAny "" r3Sec = false := by decide
    have hE : testAny "" actionWords = false := by decide
    have hF : testAny "" qualityWords = false := by decide
    simp only [evaluatePromptQuality, h1, hA, hB, hC, hD, hE, hF]
    rcases eq_or_ne r 1 with rfl | hr1
    · norm_num
    · rcases eq_or_ne r 3 with rfl | hr3
      · norm_num
      · simp only [if_neg hr1, if_neg hr3]
        norm_num

/-- `round2` preserves nonnegativity. -/
theorem round2_nonneg (q : ℚ) (h : 0 ≤ q) : 0 ≤ round2 q := by
  rw [round2_eq_intFloor]
  apply div_nonneg _ (by norm_num : (0 : ℚ) ≤ 100)
  have h2 : (0 : ℤ) ≤ ⌊q * 100 + 1 / 2⌋ := Int.le_floor.mpr (by push_cast; linarith)
  exact_mod_cast h2

/-- `round2` respects integer upper bounds. -/
theorem round2_le_int (q : ℚ) (k : ℤ) (h : q ≤ (k : ℚ)) : round2 q ≤ (k : ℚ) := by
  rw [round2_eq_intFloor]
  rw [div_le_iff₀ (by norm_num : (0 : ℚ) < 100)]
  have h1 : ⌊q * 100 + 1 / 2⌋ ≤ ⌊(k : ℚ) * 100 + 1 / 2⌋ := Int.floor_le_floor (by linarith)
  have h2 : ⌊(k : ℚ) * 100 + 1 / 2⌋ = 100 * k := by
    have h3 : ((k : ℚ) * 100 + 1 / 2) = 1 / 2 + ((100 * k : ℤ) : ℚ) := by push_cast; ring
    rw [h3, Int.floor_add_int]
    have h4 : ⌊(1 / 2 : ℚ)⌋ = 0 := by
      rw [Int.floor_eq_iff]
      norm_num
    rw [h4]
    ring
  rw [h2] at h1
  calc ((⌊q * 100 + 1 / 2⌋ : ℤ) : ℚ) ≤ ((100 * k : ℤ) : ℚ) := by exact_mod_cast h1
    _ = (k : ℚ) * 100 := by push_cast; ring

/-- C9: the reverse-engineering score always lies in [0, 110], and 110 is reached on a
response containing a reconstruction marker, a reasoning marker, an analysis marker and
a context marker, because the +10 analysis bonus sits on top of the 100 base with no
ceiling clamp. -/
theorem reverseEngineering_bounds :
    (∀ s : String, 0 ≤ (evaluateReverseEngineering s).score ∧
      (evaluateReverseEngineering s).score ≤ 110) ∧
    (evaluateReverseEngineering "prompt because style recipe").score = 110 ∧
    (evaluateReverseEngineering "prompt because style recipe").violations = [] := by
  refine ⟨?_, ?_, by decide⟩
  · intro s
    constructor
    · show 0 ≤ round2 _
      apply round2_nonneg
      split_ifs <;> norm_num
    · show round2 _ ≤ 110
      have h := round2_le_int
        (if (100 - (if hasREMarker (lowerL s.toList) rePromptWords then (0 : ℚ) else 30)
            - (if hasREMarker (lowerL s.toList) reReasonWords then 0 else 25)
            + (if hasREMarker (lowerL s.toList) reAnalysisWords then 10 else 0)
            - (if hasREMarker (lowerL s.toList) reContextWords then 0 else 15)) < 0 then 0
          else (100 - (if hasREMarker (lowerL s.toList) rePromptWords then (0 : ℚ) else 30)
            - (if hasREMarker (lowerL s.toList) reReasonWords then 0 else 25)
            + (if hasREMarker (lowerL s.toList) reAnalysisWords then 10 else 0)
            - (if hasREMarker (lowerL s.toList) reContextWords then 0 else 15)))
        110 (by split_ifs <;> norm_num)
      simpa using h
  · have hPR : hasREMarker (lowerL (String.toList "prompt because style recipe"))
        rePromptWords = true := by decide
    have hRe : hasREMarker (lowerL (String.toList "prompt because style recipe"))
        reReasonWords = true := by decide
    have hAn : hasREMarker (lowerL (String.toList "prompt because style recipe"))
        reAnalysisWords = true := by decide
    have hCx : hasREMarker (lowerL (String.toList "prompt because style recipe"))
        reContextWords = true := by decide
    show round2 _ = 110
    rw [hPR, hRe, hAn, hCx]
    norm_num
    exact round2_of_hundredths _ 11000 (by norm_num)

/-- C6: for round 2 the final score is the reverse-engineering score of the prompt
times 1.5, re-rounded to 2 decimals, and the whole result (score and violations)
depends only on the prompt — two round-2 submissions with the same prompt but
different generated outputs (or criteria) are scored identically. -/
theorem round2_prompt_only (prompt o1 o2 : String) (c1 c2 : EvaluationCriteria) :
    (submitEval prompt o1 2 c1).score
      = round2 ((evaluateReverseEngineering prompt).score * 1.5) ∧
    submitEval prompt o1 2 c1 = submitEval prompt o2 2 c2 := by
  unfold submitEval
  norm_num [roundMultiplier]

/-- C2 counterexample: a 13-word round-1 output that satisfies every required element
and avoids every forbidden word scores 55 (70 − 15 for `very_brief`), which is below
the passing threshold 60 — yet the challenge scoring endpoint adds it to the team
total unconditionally: a team at 100 points moves to 155.  So there IS a scoring path
that adds a below-threshold score to a team's total. -/
theorem passGating_counterexample :
    (evaluateOutputAgainstCriteria
        "The camera and battery pack ₹ 999 mAh rating is quite strong overall today"
        seedRound1Criteria (roundMultiplier 1)).score < 60 ∧
    (challengeScoreUpdate ⟨100, []⟩ 1 "precision-product-description" seedRound1Criteria
        none
        "The camera and battery pack ₹ 999 mAh rating is quite strong overall today").score
      = 155 ∧
    (100 : ℚ) <
      (challengeScoreUpdate ⟨100, []⟩ 1 "precision-product-description" seedRound1Criteria
        none
        "The camera and battery pack ₹ 999 mAh rating is quite strong overall today").score := by
  have hwc : countWords
      "The camera and battery pack ₹ 999 mAh rating is quite strong overall today" = 13 := by
    decide
  have hreq : containsRequired
      "The camera and battery pack ₹ 999 mAh rating is quite strong overall today"
      ["₹", "battery", "camera", "mAh"] = [] := by decide
  have hforb : findForbidden
      "The camera and battery pack ₹ 999 mAh rating is quite strong overall today"
      ["revolutionary", "groundbreaking", "unprecedented", "game-changing", "world-class"]
      = [] := by decide
  have hpre : preScore
      "The camera and battery pack ₹ 999 mAh rating is quite strong overall today"
      seedRound1Criteria = 55 := by
    simp only [preScore, seedRound1Criteria, lengthPenalty, wordCountPenalty, maxWordsPenalty,
      pricePenalty, requiredPenalty, forbiddenPenalty, sentimentPenalty, hwc, hreq, hforb]
    norm_num
  have hscore : (evaluateOutputAgainstCriteria
      "The camera and battery pack ₹ 999 mAh rating is quite strong overall today"
      seedRound1Criteria (roundMultiplier 1)).score = 55 := by
    show round2 (preScore _ _ * roundMultiplier 1) = 55
    rw [hpre]
    norm_num [roundMultiplier]
    exact round2_of_hundredths _ 5500 (by norm_num)
  refine ⟨by rw [hscore]; norm_num, ?_, ?_⟩
  · show (⟨100, []⟩ : TeamState).score + (evaluateOutputAgainstCriteria _ _ _).score = 155
    rw [hscore]
    norm_num
  · show (100 : ℚ) < (⟨100, []⟩ : TeamState).score + (evaluateOutputAgainstCriteria _ _ _).score
    rw [hscore]
    norm_num

/-- C2 amended: in `POST /api/submit-prompt` a submission record is persisted
unconditionally and the team total increases by exactly the final score iff the final
score is ≥ 60 (otherwise it is unchanged); the challenge scoring endpoint
(`POST /api/challenges/:round/:challengeId/score` with a `teamId`), however, also
persists a record but adds the final score to the team total unconditionally, even
below the threshold. -/
theorem passGating_amended :
    (∀ (st : TeamState) (round : Option ℤ) (challenge : Option String)
        (prompt llmResp : String) (criteria : EvaluationCriteria),
      (submitPrompt st round challenge prompt llmResp criteria).submissions
        = st.submissions ++ [submitRecord round challenge prompt llmResp
            (submitEval prompt llmResp (effRound round) criteria)] ∧
      (submitPrompt st round challenge prompt llmResp criteria).score
        = (if 60 ≤ (submitEval prompt llmResp (effRound round) criteria).score
           then st.score + (submitEval prompt llmResp (effRound round) criteria).score
           else st.score)) ∧
    (∀ (st : TeamState) (roundOrder : ℤ) (slug : String) (criteria : EvaluationCriteria)
        (prompt : Option String) (llmOutput : String),
      (challengeScoreUpdate st roundOrder slug criteria prompt llmOutput).score
        = st.score + (evaluateOutputAgainstCriteria llmOutput criteria
            (roundMultiplier roundOrder)).score ∧
      (challengeScoreUpdate st roundOrder slug criteria prompt llmOutput).submissions.length
        = st.submissions.length + 1) := by
  constructor
  · intro st round challenge prompt llmResp criteria
    unfold submitPrompt
    constructor
    · dsimp only
    · dsimp only
      simp only [decide_eq_true_eq]
  · intro st roundOrder slug criteria prompt llmOutput
    unfold challengeScoreUpdate
    constructor
    · dsimp only
    · dsimp only
      rw [List.length_append, List.length_singleton]

theorem foldl_max_le_iff (l : List ℚ) (a c : ℚ) :
    l.foldl max a ≤ c ↔ a ≤ c ∧ ∀ x ∈ l, x ≤ c := by
  induction l generalizing a with
  | nil => simp
  | cons y t ih =>
    simp only [List.foldl_cons, ih, max_le_iff, List.mem_cons]
    constructor
    · rintro ⟨⟨h1, h2⟩, h3⟩
      refine ⟨h1, ?_⟩
      intro x hx
      rcases hx with rfl | hx
      · exact h2
      · exact h3 x hx
    · rintro ⟨h1, h2⟩
      exact ⟨⟨h1, h2 y (Or.inl rfl)⟩, fun x hx => h2 x (Or.inr hx)⟩

theorem foldl_max_lt_iff (l : List ℚ) (a c : ℚ) :
    l.foldl max a < c ↔ a < c ∧ ∀ x ∈ l, x < c := by
  induction l generalizing a with
  | nil => simp
  | cons y t ih =>
    simp only [List.foldl_cons, ih, max_lt_iff, List.mem_cons]
    constructor
    · rintro ⟨⟨h1, h2⟩, h3⟩
      refine ⟨h1, ?_⟩
      intro x hx
      rcases hx with rfl | hx
      · exact h2
      · exact h3 x hx
    · rintro ⟨h1, h2⟩
      exact ⟨⟨h1, h2 y (Or.inl rfl)⟩, fun x hx => h2 x (Or.inr hx)⟩

theorem le_foldl_max (l : List ℚ) (a : ℚ) :
    a ≤ l.foldl max a ∧ ∀ x ∈ l, x ≤ l.foldl max a := by
  induction l generalizing a with
  | nil => simp
  | cons y t ih =>
    simp only [List.foldl_cons]
    constructor
    · calc a ≤ max a y := le_max_left _ _
        _ ≤ t.foldl max (max a y) := (ih (max a y)).1
    · intro x hx
      rcases List.mem_cons.mp hx with rfl | hx
      · calc x ≤ max a x := le_max_right _ _
          _ ≤ t.foldl max (max a x) := (ih (max a x)).1
      · exact (ih (max a y)).2 x hx

theorem foldl_max_eq_or_mem (l : List ℚ) (a : ℚ) :
    l.foldl max a = a ∨ l.foldl max a ∈ l := by
  induction l generalizing a with
  | nil => exact Or.inl rfl
  | cons y t ih =>
    simp only [List.foldl_cons]
    rcases ih (max a y) with h | h
    · rcases le_total a y with hay | hay
      · right
        rw [h, max_eq_right hay]
        exact List.mem_cons_self _ _
      · left
        rw [h, max_eq_left hay]
    · right
      exact List.mem_cons_of_mem _ h

/-- Membership description of the score list behind `bestScoreRaw`. -/
theorem mem_roundScores {subs : List SubmissionRec} {r : ℤ} {x : ℚ} :
    x ∈ (roundSubs subs r).map (·.score) ↔
      ∃ s ∈ subs, s.round = some r ∧ s.score = x := by
  unfold roundSubs
  simp only [List.mem_map, List.mem_filter, beq_iff_eq]
  constructor
  · rintro ⟨s, ⟨hs1, hs2⟩, rfl⟩
    exact ⟨s, hs1, hs2, rfl⟩
  · rintro ⟨s, hs1, hs2, rfl⟩
    exact ⟨s, ⟨hs1, hs2⟩, rfl⟩

/-- A positive threshold is reached by the floored maximum iff some submission of the
round reaches it. -/
theorem bestScoreRaw_ge_iff (subs : List SubmissionRec) (r : ℤ) (c : ℚ) (hc : 0 < c) :
    c ≤ bestScoreRaw subs r ↔ ∃ s ∈ subs, s.round = some r ∧ c ≤ s.score := by
  unfold bestScoreRaw
  constructor
  · intro h
    by_contra hcon
    push_neg at hcon
    have hlt : ((roundSubs subs r).map (·.score)).foldl max 0 < c := by
      rw [foldl_max_lt_iff]
      refine ⟨hc, ?_⟩
      intro x hx
      obtain ⟨s, hs1, hs2, rfl⟩ := mem_roundScores.mp hx
      exact hcon s hs1 hs2
    linarith
  · rintro ⟨s, hs1, hs2, hsc⟩
    have hmem : s.score ∈ (roundSubs subs r).map (·.score) :=
      mem_roundScores.mpr ⟨s, hs1, hs2, rfl⟩
    calc c ≤ s.score := hsc
      _ ≤ _ := (le_foldl_max _ 0).2 _ hmem

/-- C5: round 1 is always unlocked; for r in {2, 3}, round r is unlocked exactly when
some round r−1 submission scores at least 60 (so: false when round r−1 has no entries
or its best score is below 60), independently of the other rounds' history. -/
theorem unlock_monotonicity (hist : List SubmissionRec) :
    (roundSnapshot hist 1).unlocked = true ∧
    ((roundSnapshot hist 2).unlocked = true ↔ ∃ s ∈ hist, s.round = some 1 ∧ 60 ≤ s.score) ∧
    ((roundSnapshot hist 3).unlocked = true ↔ ∃ s ∈ hist, s.round = some 2 ∧ 60 ≤ s.score) := by
  refine ⟨?_, ?_, ?_⟩
  · show isPreviousRoundCompleted hist 1 = true
    unfold isPreviousRoundCompleted
    norm_num
  · show isPreviousRoundCompleted hist 2 = true ↔ _
    unfold isPreviousRoundCompleted
    rw [if_neg (by norm_num), decide_eq_true_iff]
    have h := bestScoreRaw_ge_iff hist (2 - 1 : ℤ) 60 (by norm_num)
    norm_num at h ⊢
    exact h
  · show isPreviousRoundCompleted hist 3 = true ↔ _
    unfold isPreviousRoundCompleted
    rw [if_neg (by norm_num), decide_eq_true_iff]
    have h := bestScoreRaw_ge_iff hist (3 - 1 : ℤ) 60 (by norm_num)
    norm_num at h ⊢
    exact h

/-- C7 counterexample: with round-1 best 75 and round-2 best 80 (both ≥ 60), round 3 is
unlocked and round 2 is locked, yet round 2 is STILL `accessible = true` — the claimed
"accessible iff unlocked and round 3 not unlocked" is false, because the source reads
the stale initial `locked = false` when computing round 2's accessibility. -/
theorem round2_accessibility_counterexample :
    (roundSnapshot [⟨some 1, none, "", "", 75, 0, none⟩,
                    ⟨some 2, none, "", "", 80, 0, none⟩] 2).accessible = true ∧
    (roundSnapshot [⟨some 1, none, "", "", 75, 0, none⟩,
                    ⟨some 2, none, "", "", 80, 0, none⟩] 3).unlocked = true ∧
    (roundSnapshot [⟨some 1, none, "", "", 75, 0, none⟩,
                    ⟨some 2, none, "", "", 80, 0, none⟩] 2).locked = true := by
  decide

/-- C7 amended: round 2's `accessible` flag equals round 2's `unlocked` flag (round-1
best ≥ 60), irrespective of round 3: the `&& !locked` in the source reads the stale
initial `false`.  Round 2's `locked` flag does equal round 3's `unlocked` flag, so once
round 3 unlocks, round 2 is flagged `locked` while remaining `accessible`. -/
theorem round2_accessibility_amended (subs : List SubmissionRec) :
    (roundSnapshot subs 2).accessible = (roundSnapshot subs 2).unlocked ∧
    (roundSnapshot subs 2).locked = (roundSnapshot subs 3).unlocked := by
  constructor
  · show (if (2 : ℤ) = 1 then (true, isPreviousRoundCompleted subs 2)
        else if (2 : ℤ) = 2 then
          (isPreviousRoundCompleted subs 2 && !false, isPreviousRoundCompleted subs 3)
        else if (2 : ℤ) = 3 then (isPreviousRoundCompleted subs 3, false)
        else (false, false)).1 = isPreviousRoundCompleted subs 2
    norm_num
  · show (if (2 : ℤ) = 1 then (true, isPreviousRoundCompleted subs 2)
        else if (2 : ℤ) = 2 then
          (isPreviousRoundCompleted subs 2 && !false, isPreviousRoundCompleted subs 3)
        else if (2 : ℤ) = 3 then (isPreviousRoundCompleted subs 3, false)
        else (false, false)).2 = isPreviousRoundCompleted subs 3
    norm_num

/-- C8 counterexample: one round-1 submission with score 0 — so the round has an
attempt (`attempts = 1`), but `bestScore` is reported as `null`, not 0, because the
source uses `bestScore > 0 ? bestScore : null`. -/
theorem bestScore_counterexample :
    (roundSnapshot [⟨some 1, none, "", "", 0, 0, none⟩] 1).attempts = 1 ∧
    (roundSnapshot [⟨some 1, none, "", "", 0, 0, none⟩] 1).bestScore = none := by
  decide

/-- C8 amended: `attempts` is the number of the round's submissions, but `bestScore` is
`null` exactly when no submission of the round has a POSITIVE score (in particular it
is `null`, not 0, when attempts exist and the best score is 0 or negative); when it is
`some q`, q is the score of one of the round's submissions and an upper bound for all
of them. -/
theorem bestScore_amended (subs : List SubmissionRec) (r : ℤ) :
    (roundSnapshot subs r).attempts = (roundSubs subs r).length ∧
    ((roundSnapshot subs r).bestScore = none ↔
      ∀ s ∈ subs, s.round = some r → s.score ≤ 0) ∧
    (∀ q : ℚ, (roundSnapshot subs r).bestScore = some q →
      (∃ s ∈ subs, s.round = some r ∧ s.score = q) ∧
      ∀ s ∈ subs, s.round = some r → s.score ≤ q) := by
  have hbs : (roundSnapshot subs r).bestScore
      = if 0 < bestScoreRaw subs r then some (bestScoreRaw subs r) else none := rfl
  refine ⟨rfl, ?_, ?_⟩
  · rw [hbs]
    by_cases h : 0 < bestScoreRaw subs r
    · rw [if_pos h]
      constructor
      · intro hcon
        cases hcon
      · intro hall
        exfalso
        have hle : bestScoreRaw subs r ≤ 0 := by
          unfold bestScoreRaw
          rw [foldl_max_le_iff]
          refine ⟨le_refl 0, ?_⟩
          intro x hx
          obtain ⟨s, hs1, hs2, rfl⟩ := mem_roundScores.mp hx
          exact hall s hs1 hs2
        linarith
    · rw [if_neg h]
      constructor
      · intro _ s hs1 hs2
        have hmem : s.score ∈ (roundSubs subs r).map (·.score) :=
          mem_roundScores.mpr ⟨s, hs1, hs2, rfl⟩
        have hub := (le_foldl_max ((roundSubs subs r).map (·.score)) 0).2 _ hmem
        have hle : bestScoreRaw subs r ≤ 0 := le_of_not_lt h
        unfold bestScoreRaw at hle
        linarith
      · intro _
        rfl
  · intro q hq
    rw [hbs] at hq
    by_cases h : 0 < bestScoreRaw subs r
    · rw [if_pos h] at hq
      obtain rfl : bestScoreRaw subs r = q := Option.some.inj hq
      constructor
      · rcases foldl_max_eq_or_mem ((roundSubs subs r).map (·.score)) 0 with h0 | hmem
        · exfalso
          unfold bestScoreRaw at h
          rw [h0] at h
          exact lt_irrefl 0 h
        · exact mem_roundScores.mp hmem
      · intro s hs1 hs2
        exact (le_foldl_max ((roundSubs subs r).map (·.score)) 0).2 _
          (mem_roundScores.mpr ⟨s, hs1, hs2, rfl⟩)
    · rw [if_neg h] at hq
      cases hq
